import Mathlib

/-!
Shallow embedding of the `conrig` configuration library: the path-resolution
and format-dispatch engine from `src/parser.rs` and `src/path.rs`, together
with a filesystem state model for the read/write operations.

Paths are modelled as lists of name components (root to leaf); a name is a
list of characters.  File-name stem/extension splitting follows the Rust
standard library's `split_file_at_dot` semantics, which the source relies on
through `Path::extension` and `Path::with_extension`.
-/

namespace Conrig

/-- The serialization formats supported by the crate (`FileFormat` in
`parser.rs`), with every format feature compiled in. -/
inductive FileFormat where
  | Toml
  | Ron
  | Json
  | Yaml
  deriving DecidableEq, Repr

/-- The build-time default format (`FileFormat::DEFAULT_FILE_FORMAT`):
with the `toml` feature enabled it is `Toml`. -/
def FileFormat.DEFAULT_FILE_FORMAT : FileFormat := .Toml

/-- Canonical file extension of a format (`FileFormat::extension`);
YAML is normalized to `yaml`. -/
def FileFormat.extension : FileFormat → List Char
  | .Json => "json".toList
  | .Yaml => "yaml".toList
  | .Toml => "toml".toList
  | .Ron => "ron".toList

/-- A file-name component, as its list of characters. -/
abbrev FName := List Char

/-- A filesystem path, as its list of components from root to leaf. -/
abbrev FsPath := List FName

/-- Index of the last `.` in a character list, if any. -/
def rposDot : List Char → Option Nat
  | [] => none
  | c :: rest =>
    match rposDot rest with
    | some i => some (i + 1)
    | none => if c = '.' then some 0 else none

/-- Rust `split_file_at_dot`: split a file name into stem and extension at
the last dot, ignoring a dot in the leading position; `..` and names
without such a dot have no extension. -/
def splitFileAtDot (f : FName) : FName × Option FName :=
  if f = ('.' :: ['.']) then (f, none)
  else
    match f with
    | [] => ([], none)
    | c :: rest =>
      match rposDot rest with
      | none => (f, none)
      | some i => (c :: rest.take i, some (rest.drop (i + 1)))

/-- The extension of a file name (`Path::extension` on the final component). -/
def fileExtension (f : FName) : Option FName := (splitFileAtDot f).2

/-- The stem of a file name (`Path::file_stem` on the final component). -/
def fileStem (f : FName) : FName := (splitFileAtDot f).1

/-- `Path::extension` of a whole path: extension of its final component. -/
def pathExtension (p : FsPath) : Option FName :=
  match p.getLast? with
  | none => none
  | some f => fileExtension f

/-- `Path::with_extension`: replace the final component's extension. -/
def withExtension (p : FsPath) (e : FName) : FsPath :=
  match p.getLast? with
  | none => p
  | some f =>
    p.dropLast ++ [if e = [] then fileStem f else fileStem f ++ ('.' :: e)]

/-- `Path::join` with a single further component. -/
def pathJoin (p : FsPath) (name : FName) : FsPath := p ++ [name]

/-- The set of files present on disk, for existence probing
(`std::fs::File::open(..).is_ok()`). -/
abbrev DiskFiles := List FsPath

/-- `detect_file_format` from `parser.rs`, translated statement by statement
from the expansion of the `try_open!` macro with all four format features
enabled.  Each expansion starts from the original `path` and first evaluates
`path.extension()?`, so an extension-less path makes the whole function
return `none`.  Within the single `"yaml" | "yml"` expansion the second
repetition operates on the shadowed path produced by the first, so the
`yml` candidate is the `yaml` candidate with `.yml` appended. -/
def detect_file_format (fs : DiskFiles) (path : FsPath) (default_format : FileFormat) :
    Option (FsPath × FileFormat) :=
  match pathExtension path with
  | none => none
  | some e1 =>
    let p1 := withExtension path (e1 ++ ('.' :: "toml".toList))
    if p1 ∈ fs then some (p1, .Toml)
    else
      match pathExtension path with
      | none => none
      | some e2 =>
        let p2 := withExtension path (e2 ++ ('.' :: "json".toList))
        if p2 ∈ fs then some (p2, .Json)
        else
          match pathExtension path with
          | none => none
          | some e3 =>
            let p3 := withExtension path (e3 ++ ('.' :: "yaml".toList))
            if p3 ∈ fs then some (p3, .Yaml)
            else
              match pathExtension p3 with
              | none => none
              | some e4 =>
                let p4 := withExtension p3 (e4 ++ ('.' :: "yml".toList))
                if p4 ∈ fs then some (p4, .Yaml)
                else
                  match pathExtension path with
                  | none => none
                  | some e5 =>
                    let p5 := withExtension path (e5 ++ ('.' :: "ron".toList))
                    if p5 ∈ fs then some (p5, .Ron)
                    else if path ∈ fs then some (path, default_format)
                    else none

/-- File-system error variants (`FileSystemError` in `error.rs`); the
wrapped `std::io::Error` payload is modelled as a numeric code. -/
inductive FileSystemError where
  | OpenConfig (e : Nat)
  | ReadConfig (e : Nat)
  | WriteConfig (e : Nat)
  | NoProjectDirectory
  deriving DecidableEq, Repr

/-- Serializer-level error (`LangError` in `error.rs`), modelled as the
observation that content in one format was decoded as another, that the
content was not produced by any serializer, or — for the writer-based
serializers (`serde_json::to_writer`, `serde_yaml::to_writer`) — that an
underlying io write failure was wrapped into the library's own error
type before reaching the caller. -/
inductive LangError where
  | FormatMismatch (expected found : FileFormat)
  | NotData (expected : FileFormat)
  | IoWrite (fmt : FileFormat) (e : Nat)
  deriving DecidableEq, Repr

/-- The crate-wide error type (`ConrigError` in `error.rs`). -/
inductive ConrigError where
  | LangError (e : LangError)
  | FileSystemError (e : FileSystemError)
  | NoConfigurationFile
  deriving DecidableEq, Repr

/-- System-level directory kind (`ConfigType` in `path.rs`). -/
inductive ConfigType where
  | Preference
  | Config
  deriving DecidableEq, Repr

/-- Search options (`ConfigOption` in `path.rs`).  The source field
`allow_dot_prefix` is named `allow_dot` here. -/
structure ConfigOption where
  allow_dot : Bool
  sys_override_local : Bool
  config_sys_type : ConfigType
  deriving DecidableEq, Repr

/-- The configuration descriptor (`ConfigPathMetadata` in `path.rs`).
The `project_path` identity strings only feed the platform directory
capability, which is part of `SearchEnv` here, so they are omitted. -/
structure ConfigPathMetadata where
  config_name : List FName
  default_format : FileFormat
  extra_folders : List FsPath
  extra_files : List FsPath
  config_option : ConfigOption
  deriving DecidableEq, Repr

/-- The environment a search runs in: the files present on disk, the
platform directory capability (`directories::ProjectDirs`, an external
collaborator, which may yield no directory), and the current working
directory (`std::env::current_dir`, which may fail with an io error). -/
structure SearchEnv where
  fs : DiskFiles
  sysConfigDir : Option FsPath
  sysPreferenceDir : Option FsPath
  currentDir : Option FsPath
  currentDirErr : Nat
  deriving DecidableEq, Repr

/-- `ProjectPath::sys_dir`: select the preference or config directory. -/
def sys_dir (env : SearchEnv) (t : ConfigType) : Option FsPath :=
  match t with
  | .Preference => env.sysPreferenceDir
  | .Config => env.sysConfigDir

/-- The local `make_paths` helper inside `search_config_file`
(`path.rs`): expand candidate names under a base directory, the plain
form first and, when dotting is allowed, the dotted form second. -/
def make_paths (base : FsPath) (names : List FName) (with_dot : Bool) : List FsPath :=
  names.flatMap fun name =>
    if with_dot then [pathJoin base name, pathJoin base ('.' :: name)]
    else [pathJoin base name]

/-- A possibly unresolved configuration file (`RawConfigFile` in
`parser.rs`); the back reference to the metadata is passed explicitly to
the operations that need it. -/
structure RawConfigFile where
  file_format : FileFormat
  path : Option FsPath
  deriving DecidableEq, Repr

/-- A resolved configuration file (`ConfigFile` in `parser.rs`). -/
structure ConfigFile where
  file_format : FileFormat
  path : FsPath
  deriving DecidableEq, Repr

/-- `ConfigPathMetadata::search_config_file` (`path.rs`): compute the
system directory (hard failure when absent), then the current directory
(hard failure when unavailable), then probe, through
`detect_file_format`, the extra files, the expanded extra folders, and
the expanded system/local roots in the order fixed by
`sys_override_local`; the first hit wins, and a missing hit yields an
unresolved file carrying the default format. -/
def search_config_file (env : SearchEnv) (m : ConfigPathMetadata) :
    Except ConrigError RawConfigFile :=
  match sys_dir env m.config_option.config_sys_type with
  | none => .error (.FileSystemError .NoProjectDirectory)
  | some sd =>
    match env.currentDir with
    | none => .error (.FileSystemError (.OpenConfig env.currentDirErr))
    | some cd =>
      let sys_files := make_paths sd m.config_name m.config_option.allow_dot
      let current_dir_files := make_paths cd m.config_name m.config_option.allow_dot
      let first :=
        (m.extra_files.filterMap (fun t => detect_file_format env.fs t m.default_format)
          ++ ((m.extra_folders.flatMap fun t =>
                make_paths t m.config_name m.config_option.allow_dot)
              ++ (if m.config_option.sys_override_local then
                    sys_files ++ current_dir_files
                  else
                    current_dir_files ++ sys_files)).filterMap
                (fun t => detect_file_format env.fs t m.default_format)).head?
      match first with
      | some (p, f) => .ok ⟨f, some p⟩
      | none => .ok ⟨m.default_format, none⟩

/-- `ConfigPathMetadata::default_sys_config_file`: the first candidate
name with the default format's extension, under the system directory.
The source indexes `config_name[0]`, whose non-emptiness the constructor
asserts; the empty name stands in for the impossible empty case. -/
def default_sys_config_file (env : SearchEnv) (m : ConfigPathMetadata) :
    Except ConrigError FsPath :=
  match sys_dir env m.config_option.config_sys_type with
  | none => .error (.FileSystemError .NoProjectDirectory)
  | some d => .ok (withExtension (pathJoin d (m.config_name.headD []))
      m.default_format.extension)

/-- `ConfigPathMetadata::default_local_config_file`. -/
def default_local_config_file (env : SearchEnv) (m : ConfigPathMetadata) :
    Except ConrigError FsPath :=
  match env.currentDir with
  | none => .error (.FileSystemError (.OpenConfig env.currentDirErr))
  | some cd => .ok (withExtension (pathJoin cd (m.config_name.headD []))
      m.default_format.extension)

/-- `ConfigPathMetadata::default_config_file`: choose by
`sys_override_local`. -/
def default_config_file (env : SearchEnv) (m : ConfigPathMetadata) :
    Except ConrigError FsPath :=
  if m.config_option.sys_override_local then default_sys_config_file env m
  else default_local_config_file env m

/-- `RawConfigFile::fallback_path`: keep an already-resolved path,
otherwise use the supplied one. -/
def RawConfigFile.fallback_path (c : RawConfigFile) (p : FsPath) : ConfigFile :=
  ⟨c.file_format, c.path.getD p⟩

/-- `RawConfigFile::fallback_default_sys`: keep an already-resolved path,
otherwise synthesize the system default. -/
def RawConfigFile.fallback_default_sys (env : SearchEnv) (m : ConfigPathMetadata)
    (c : RawConfigFile) : Except ConrigError ConfigFile :=
  match c.path with
  | some p => .ok ⟨c.file_format, p⟩
  | none => (default_sys_config_file env m).map (⟨c.file_format, ·⟩)

/-- `RawConfigFile::fallback_default_local`. -/
def RawConfigFile.fallback_default_local (env : SearchEnv) (m : ConfigPathMetadata)
    (c : RawConfigFile) : Except ConrigError ConfigFile :=
  match c.path with
  | some p => .ok ⟨c.file_format, p⟩
  | none => (default_local_config_file env m).map (⟨c.file_format, ·⟩)

/-- `RawConfigFile::fallback_default`. -/
def RawConfigFile.fallback_default (env : SearchEnv) (m : ConfigPathMetadata)
    (c : RawConfigFile) : Except ConrigError ConfigFile :=
  match c.path with
  | some p => .ok ⟨c.file_format, p⟩
  | none => (default_config_file env m).map (⟨c.file_format, ·⟩)

/-- Configuration values, the type parameter `T` of the source's generic
operations, modelled concretely so that runs evaluate. -/
abbrev Value := Nat

/-- `T::default()` for the modelled value type. -/
def defaultValue : Value := 0

/-- The content of a file on disk: either raw bytes produced by no
serializer (an empty or foreign file) or the encoding of a value in a
format.  The serializers themselves are external collaborators; their
encodings are modelled as the injective pairing of format and value. -/
inductive Content where
  | raw
  | data (fmt : FileFormat) (v : Value)
  deriving DecidableEq, Repr

/-- The external serializer's encoding of a representable value. -/
def encode (fmt : FileFormat) (v : Value) : Content := .data fmt v

/-- `FileFormat::read_str`: decode content using the given format's
deserializer; content written by another format or by no serializer
fails with a language error. -/
def FileFormat.read_str (fmt : FileFormat) (c : Content) : Except LangError Value :=
  match c with
  | .raw => .error (.NotData fmt)
  | .data f v => if f = fmt then .ok v else .error (.FormatMismatch fmt f)

/-- Mutable filesystem state: an association list of file contents (the
first binding of a path wins) and the set of existing directories. -/
structure FSState where
  files : List (FsPath × Content)
  dirs : List FsPath
  deriving DecidableEq, Repr

/-- Look a file up in the state. -/
def lookupFile : List (FsPath × Content) → FsPath → Option Content
  | [], _ => none
  | (q, c) :: rest, p => if q = p then some c else lookupFile rest p

/-- Overwrite (or create) one file. -/
def setFile (files : List (FsPath × Content)) (p : FsPath) (c : Content) :
    List (FsPath × Content) :=
  (p, c) :: files

/-- Every ancestor of a path, the path itself included; `create_dir_all`
brings all of them into existence. -/
def pathAncestors : FsPath → List FsPath
  | [] => [[]]
  | c :: rest => [] :: (pathAncestors rest).map (c :: ·)

/-- Injected io-failure outcomes for the blocking filesystem calls, so
that each error path of the source is reachable in the model.  `none`
means the call succeeds. -/
structure IoEnv where
  mkdirErr : Option Nat
  openErr : Option Nat
  writeErr : Option Nat
  readErr : Option Nat
  deriving DecidableEq, Repr

/-- The environment in which every filesystem call succeeds. -/
def cleanIo : IoEnv := ⟨none, none, none, none⟩

/-- `std::fs::create_dir_all`: recursively create a directory tree. -/
def create_dir_all (io : IoEnv) (st : FSState) (dir : FsPath) :
    Except Nat FSState :=
  match io.mkdirErr with
  | some e => .error e
  | none => .ok { st with dirs := pathAncestors dir ++ st.dirs }

/-- `Path::parent`: every nonempty component list has a parent. -/
def parentPath (p : FsPath) : Option FsPath :=
  match p with
  | [] => none
  | _ => some p.dropLast

/-- `FileFormat::write` (`parser.rs`): serialize a value into an already
opened file.  Encoding of a representable value succeeds; the underlying
io write may fail, leaving the truncated file behind.  Toml and Ron
buffer to a string and call `write_all`, mapping the io failure to
`FileSystemError::WriteConfig`; Json and Yaml go through
`serde_json::to_writer` / `serde_yaml::to_writer`, whose error type
wraps the io failure, so it surfaces as `ConrigError::LangError`
(`parser.rs` lines 110 to 127). -/
def FileFormat.write (io : IoEnv) (fmt : FileFormat) (v : Value) (st : FSState)
    (p : FsPath) : Except ConrigError Unit × FSState :=
  match io.writeErr with
  | some e =>
    match fmt with
    | .Toml => (.error (.FileSystemError (.WriteConfig e)), st)
    | .Ron => (.error (.FileSystemError (.WriteConfig e)), st)
    | .Json => (.error (.LangError (.IoWrite .Json e)), st)
    | .Yaml => (.error (.LangError (.IoWrite .Yaml e)), st)
  | none => (.ok (), { st with files := setFile st.files p (encode fmt v) })

/-- `RawConfigFile::read` (`parser.rs`): require a path, open the file
(failing when it does not exist), read it (an injected failure models an
io read error), and decode it with the resolved format. -/
def RawConfigFile.read (io : IoEnv) (c : RawConfigFile) (st : FSState) :
    Except ConrigError Value :=
  match c.path with
  | none => .error .NoConfigurationFile
  | some p =>
    match lookupFile st.files p with
    | none => .error (.FileSystemError (.OpenConfig 2))
    | some content =>
      match io.readErr with
      | some e => .error (.FileSystemError (.ReadConfig e))
      | none =>
        match c.file_format.read_str content with
        | .ok v => .ok v
        | .error e => .error (.LangError e)

/-- `RawConfigFile::write` (`parser.rs`): require a path, create the
parent directory recursively (failure mapped to `WriteConfig`), open the
file truncate-or-create (failure mapped to `OpenConfig`; on success the
file exists truncated), then serialize into it. -/
def RawConfigFile.write (io : IoEnv) (c : RawConfigFile) (v : Value) (st : FSState) :
    Except ConrigError Unit × FSState :=
  match c.path with
  | none => (.error .NoConfigurationFile, st)
  | some p =>
    match parentPath p with
    | none => (.error (.FileSystemError .NoProjectDirectory), st)
    | some par =>
      match create_dir_all io st par with
      | .error e => (.error (.FileSystemError (.WriteConfig e)), st)
      | .ok st1 =>
        match io.openErr with
        | some e => (.error (.FileSystemError (.OpenConfig e)), st1)
        | none =>
          let st2 := { st1 with files := setFile st1.files p .raw }
          c.file_format.write io v st2 p

/-- `RawConfigFile::read_or_new` (`parser.rs`): require a path; if the
file exists read it, otherwise create the parent directory tree, write
the provided default through `write`, and return that default. -/
def RawConfigFile.read_or_new (io : IoEnv) (c : RawConfigFile) (default : Value)
    (st : FSState) : Except ConrigError Value × FSState :=
  match c.path with
  | none => (.error .NoConfigurationFile, st)
  | some p =>
    if (lookupFile st.files p).isSome then
      (c.read io st, st)
    else
      match parentPath p with
      | none => (.error (.FileSystemError .NoProjectDirectory), st)
      | some par =>
        match create_dir_all io st par with
        | .error e => (.error (.FileSystemError (.WriteConfig e)), st)
        | .ok st1 =>
          match c.write io default st1 with
          | (.ok _, st2) => (.ok default, st2)
          | (.error e, st2) => (.error e, st2)

/-- `RawConfigFile::read_or_default`: `read_or_new` at `T::default()`. -/
def RawConfigFile.read_or_default (io : IoEnv) (c : RawConfigFile) (st : FSState) :
    Except ConrigError Value × FSState :=
  c.read_or_new io defaultValue st

/-- `ConfigFile::read` (`parser.rs`), the never-null twin of
`RawConfigFile::read`. -/
def ConfigFile.read (io : IoEnv) (c : ConfigFile) (st : FSState) :
    Except ConrigError Value :=
  RawConfigFile.read io ⟨c.file_format, some c.path⟩ st

/-- `ConfigFile::write` (`parser.rs`). -/
def ConfigFile.write (io : IoEnv) (c : ConfigFile) (v : Value) (st : FSState) :
    Except ConrigError Unit × FSState :=
  RawConfigFile.write io ⟨c.file_format, some c.path⟩ v st

/-- `ConfigFile::read_or_new` (`parser.rs`). -/
def ConfigFile.read_or_new (io : IoEnv) (c : ConfigFile) (default : Value)
    (st : FSState) : Except ConrigError Value × FSState :=
  RawConfigFile.read_or_new io ⟨c.file_format, some c.path⟩ default st

/-- `ConfigFile::read_or_default` (`parser.rs`). -/
def ConfigFile.read_or_default (io : IoEnv) (c : ConfigFile) (st : FSState) :
    Except ConrigError Value × FSState :=
  c.read_or_new io defaultValue st

/-- The per-root candidate expansion as the specification words it: each
name is tried in the order supplied, the non-dotted form before the
dotted form when dot-prefixing is allowed. -/
def specExpandRoot (root : FsPath) (names : List FName) (allowDot : Bool) : List FsPath :=
  names.flatMap fun n =>
    pathJoin root n :: (if allowDot then [pathJoin root ('.' :: n)] else [])

/-- The full search sequence as the specification words it: every entry of
`extra_files`, then every extra folder expanded over the candidate
names, then the system-root candidates followed by the local-root
candidates when `sys_override_local` is set, in the mirrored order
otherwise. -/
def specCandidateSequence (m : ConfigPathMetadata) (sysRoot localRoot : FsPath) :
    List FsPath :=
  m.extra_files
    ++ m.extra_folders.flatMap
        (fun f => specExpandRoot f m.config_name m.config_option.allow_dot)
    ++ (if m.config_option.sys_override_local then
          specExpandRoot sysRoot m.config_name m.config_option.allow_dot
            ++ specExpandRoot localRoot m.config_name m.config_option.allow_dot
        else
          specExpandRoot localRoot m.config_name m.config_option.allow_dot
            ++ specExpandRoot sysRoot m.config_name m.config_option.allow_dot)

/-- Helper: the code's candidate expansion agrees with the
specification's wording of the per-root expansion. -/
theorem make_paths_eq_specExpandRoot (base : FsPath) (names : List FName) (d : Bool) :
    make_paths base names d = specExpandRoot base names d := by
  unfold make_paths specExpandRoot
  cases d <;> simp

/-- Helper: one successful `RawConfigFile::write` on a resolved,
nonempty path: the parent tree is created, the file is truncated and
then holds the encoded value, and nothing else changes. -/
theorem write_clean_eq (fmt : FileFormat) (a : FName) (l : List FName)
    (v : Value) (st : FSState) :
    RawConfigFile.write ⟨none, none, none, none⟩ ⟨fmt, some (a :: l)⟩ v st =
      (.ok (), ⟨((a :: l), encode fmt v) :: ((a :: l), .raw) :: st.files,
        pathAncestors (a :: l).dropLast ++ st.dirs⟩) := by
  simp [RawConfigFile.write, FileFormat.write, create_dir_all, parentPath, setFile]

/-- Claim C1: the claim states that an existing file
`<root>/<names[0]>.<ext>` is always found and returned by
`search_config_file`.  Evaluation of the code at the failing input:
candidate name `conrig`, file `cur/conrig.toml` present in the current
directory, yet the search returns an unresolved handle, because
`detect_file_format` gives up on the extension-less candidate
`cur/conrig` before probing any extension. -/
theorem search_config_file_misses_first_candidate_file :
    search_config_file
      ⟨[["cur".toList, "conrig.toml".toList]], some ["sys".toList], some ["sys".toList],
        some ["cur".toList], 0⟩
      ⟨["conrig".toList], .Toml, [], [], ⟨true, false, .Config⟩⟩
      = .ok ⟨.Toml, none⟩ ∧
    ["cur".toList, "conrig.toml".toList] ∈
      ([["cur".toList, "conrig.toml".toList]] : DiskFiles) :=
  ⟨by rfl, by decide⟩

/-- Claim C2: the claim states that `detect_file_format` appends each
format extension to the base path and probes it, so that for base `app`
with both `app.toml` and `app.json` present the toml file wins.
Evaluation of the code at the failing inputs: for the extension-less
base `app` the function returns `none` although `app.toml` and
`app.json` exist; moreover the `yml` candidate for base `a.cfg` is not
`a.cfg.yml` (never probed) but `a.cfg.yaml.yml`. -/
theorem detect_file_format_bare_name_and_yml :
    detect_file_format [["app.toml".toList], ["app.json".toList]] ["app".toList] .Json
      = none ∧
    detect_file_format [["a.cfg.yml".toList]] ["a.cfg".toList] .Toml = none ∧
    detect_file_format [["a.cfg.yaml.yml".toList]] ["a.cfg".toList] .Toml
      = some (["a.cfg.yaml.yml".toList], .Yaml) :=
  ⟨by decide, by decide, by decide⟩

/-- Claim C3: for every path whose final component has no extension,
`detect_file_format` returns `none` regardless of which files exist on
disk, so extension-less candidates can never be matched. -/
theorem detect_file_format_extensionless_none (fs : DiskFiles) (p : FsPath)
    (fb : FileFormat) (h : pathExtension p = none) :
    detect_file_format fs p fb = none := by
  simp [detect_file_format, h]

/-- Witness for C3: the dot-prefixed bare name `.conrig` has no
extension, and detection fails on it even with `.conrig.toml` and the
literal `.conrig` on disk. -/
theorem detect_file_format_extensionless_none_witness :
    pathExtension [".conrig".toList] = none ∧
      detect_file_format [[".conrig.toml".toList], [".conrig".toList]]
        [".conrig".toList] .Toml = none :=
  ⟨by decide, detect_file_format_extensionless_none _ _ _ (by decide)⟩

/-- Claim C4: whenever the system and local roots are available, the
search result is exactly the first `detect_file_format` hit over the
specification's candidate sequence — extra files, then expanded extra
folders, then the two roots in the order selected by
`sys_override_local`, names in supplied order with the non-dotted form
before the dotted form — and the default format with no path when
nothing is hit. -/
theorem search_follows_spec_sequence (env : SearchEnv) (m : ConfigPathMetadata)
    (sd cd : FsPath)
    (hs : sys_dir env m.config_option.config_sys_type = some sd)
    (hc : env.currentDir = some cd) :
    search_config_file env m =
      match ((specCandidateSequence m sd cd).filterMap
          (fun t => detect_file_format env.fs t m.default_format)).head? with
      | some (p, f) => .ok ⟨f, some p⟩
      | none => .ok ⟨m.default_format, none⟩ := by
  unfold search_config_file specCandidateSequence
  rw [hs, hc]
  simp only [make_paths_eq_specExpandRoot, List.filterMap_append, List.append_assoc]

/-- Witness for C4: a concrete search that resolves through an extra
file entry. -/
theorem search_follows_spec_sequence_witness :
    search_config_file
        ⟨[["f".toList, "app.cfg.toml".toList]], some ["s".toList], some ["s".toList],
          some ["c".toList], 0⟩
        ⟨["n".toList], .Json, [], [["f".toList, "app.cfg".toList]],
          ⟨true, false, .Config⟩⟩
      = .ok ⟨.Toml, some ["f".toList, "app.cfg.toml".toList]⟩ :=
  search_follows_spec_sequence _ _ ["s".toList] ["c".toList] (by rfl) (by rfl)

/-- Claim C5: every fallback operation keeps an already-resolved path:
from a raw file whose path is `some p` each of them produces a concrete
handle whose path is exactly `p`, and a concrete handle's path can never
be absent. -/
theorem fallback_preserves_resolved_path (env : SearchEnv) (m : ConfigPathMetadata)
    (fmt : FileFormat) (p q : FsPath) :
    (RawConfigFile.mk fmt (some p)).fallback_path q = ⟨fmt, p⟩ ∧
    (RawConfigFile.mk fmt (some p)).fallback_default_sys env m = .ok ⟨fmt, p⟩ ∧
    (RawConfigFile.mk fmt (some p)).fallback_default_local env m = .ok ⟨fmt, p⟩ ∧
    (RawConfigFile.mk fmt (some p)).fallback_default env m = .ok ⟨fmt, p⟩ :=
  ⟨rfl, rfl, rfl, rfl⟩

/-- Claim C6: on a resolved location whose file does not exist,
`read_or_new` returns exactly the supplied default, leaves that file
holding the encoded default, changes no other file, and brings the whole
parent directory tree into existence. -/
theorem read_or_new_absent_creates_and_returns_default (fmt : FileFormat) (p : FsPath)
    (default : Value) (st : FSState) (hne : p ≠ [])
    (habs : lookupFile st.files p = none) :
    (RawConfigFile.read_or_new cleanIo ⟨fmt, some p⟩ default st).1 = .ok default ∧
    lookupFile (RawConfigFile.read_or_new cleanIo ⟨fmt, some p⟩ default st).2.files p
      = some (encode fmt default) ∧
    (∀ q, q ≠ p →
      lookupFile (RawConfigFile.read_or_new cleanIo ⟨fmt, some p⟩ default st).2.files q
        = lookupFile st.files q) ∧
    (∀ d, d ∈ pathAncestors p.dropLast →
      d ∈ (RawConfigFile.read_or_new cleanIo ⟨fmt, some p⟩ default st).2.dirs) := by
  obtain ⟨a, l, rfl⟩ : ∃ a l, p = a :: l := by
    cases p with
    | nil => exact absurd rfl hne
    | cons a l => exact ⟨a, l, rfl⟩
  have heq : RawConfigFile.read_or_new cleanIo ⟨fmt, some (a :: l)⟩ default st
      = (.ok default, ⟨((a :: l), encode fmt default) :: ((a :: l), .raw) :: st.files,
          pathAncestors (a :: l).dropLast
            ++ (pathAncestors (a :: l).dropLast ++ st.dirs)⟩) := by
    simp [RawConfigFile.read_or_new, habs, parentPath, create_dir_all, cleanIo,
      write_clean_eq]
  rw [heq]
  refine ⟨rfl, by simp [lookupFile], fun q hq => ?_, fun d hd => ?_⟩
  · simp only [lookupFile]
    rw [if_neg (fun h => hq h.symm), if_neg (fun h => hq h.symm)]
  · exact List.mem_append_left _ hd

/-- Witness for C6: creating `c/app.toml` on an empty filesystem
returns the supplied default 5. -/
theorem read_or_new_absent_witness :
    (["c".toList, "app.toml".toList] : FsPath) ≠ [] ∧
    (RawConfigFile.read_or_new cleanIo ⟨.Toml, some ["c".toList, "app.toml".toList]⟩
        5 ⟨[], []⟩).1 = .ok 5 :=
  ⟨by decide,
    (read_or_new_absent_creates_and_returns_default .Toml _ 5 ⟨[], []⟩
      (by decide) rfl).1⟩

/-- Claim C7: with no resolved path, each terminal operation fails with
the no-configuration-file error and returns the filesystem state
untouched. -/
theorem unresolved_terminal_ops_fail_pure (io : IoEnv) (fmt : FileFormat)
    (v default : Value) (st : FSState) :
    RawConfigFile.read io ⟨fmt, none⟩ st = .error .NoConfigurationFile ∧
    RawConfigFile.write io ⟨fmt, none⟩ v st = (.error .NoConfigurationFile, st) ∧
    RawConfigFile.read_or_new io ⟨fmt, none⟩ default st
      = (.error .NoConfigurationFile, st) ∧
    RawConfigFile.read_or_default io ⟨fmt, none⟩ st
      = (.error .NoConfigurationFile, st) :=
  ⟨rfl, rfl, rfl, rfl⟩

/-- Claim C8: when the platform capability yields no usable system
directory, the search fails hard with the no-project-directory error,
whatever the rest of the descriptor — including `sys_override_local` and
extra locations that would otherwise match. -/
theorem search_no_project_directory (env : SearchEnv) (m : ConfigPathMetadata)
    (h : sys_dir env m.config_option.config_sys_type = none) :
    search_config_file env m = .error (.FileSystemError .NoProjectDirectory) := by
  simp [search_config_file, h]

/-- Witness for C8: no system directory, local preference
(`sys_override_local = true` irrelevant) and a matching extra file —
the search still fails. -/
theorem search_no_project_directory_witness :
    sys_dir ⟨[["cur".toList, "conrig.cfg.toml".toList]], none, none,
        some ["cur".toList], 0⟩ .Config = none ∧
    search_config_file
      ⟨[["cur".toList, "conrig.cfg.toml".toList]], none, none, some ["cur".toList], 0⟩
      ⟨["conrig".toList], .Toml, [], [["cur".toList, "conrig.cfg".toList]],
        ⟨true, true, .Config⟩⟩
      = .error (.FileSystemError .NoProjectDirectory) :=
  ⟨by rfl, search_no_project_directory _ _ (by rfl)⟩

/-- Counterexample for C9: a directory-creation failure and a data-write
failure with the same underlying io error produce the very same error
value (`WriteConfig`), so the two cases are not distinguishable, contrary
to the claim. -/
theorem write_dir_failure_equals_write_failure :
    (RawConfigFile.write ⟨some 7, none, none, none⟩
        ⟨.Toml, some ["a".toList, "b.toml".toList]⟩ 1 ⟨[], []⟩).1
      = .error (.FileSystemError (.WriteConfig 7)) ∧
    (RawConfigFile.write ⟨none, none, some 7, none⟩
        ⟨.Toml, some ["a".toList, "b.toml".toList]⟩ 1 ⟨[], []⟩).1
      = .error (.FileSystemError (.WriteConfig 7)) :=
  ⟨by rfl, by rfl⟩

/-- Claim C9 (amended): `write` on a resolved location first creates the
parent directory recursively (the tree already exists in the state when
a later file-open failure is reported), then truncates-or-creates the
file and writes the encoded form; a directory-creation failure is
reported as `WriteConfig`, distinguishable from a file-open failure
(`OpenConfig`); it is also distinguishable from a failure during
writing for Json and Yaml, whose write failures surface wrapped as a
language error, but not for Toml and Ron, whose write failures are
reported as `WriteConfig` as well. -/
theorem write_order_and_error_mapping (fmt : FileFormat) (p : FsPath) (v : Value)
    (st : FSState) (hne : p ≠ []) :
    (∀ e, (RawConfigFile.write ⟨some e, none, none, none⟩ ⟨fmt, some p⟩ v st).1
        = .error (.FileSystemError (.WriteConfig e))) ∧
    (∀ e, RawConfigFile.write ⟨none, some e, none, none⟩ ⟨fmt, some p⟩ v st
        = (.error (.FileSystemError (.OpenConfig e)),
           ⟨st.files, pathAncestors p.dropLast ++ st.dirs⟩)) ∧
    (∀ e, (RawConfigFile.write ⟨none, none, some e, none⟩ ⟨fmt, some p⟩ v st).1
        = match fmt with
          | .Toml => .error (.FileSystemError (.WriteConfig e))
          | .Ron => .error (.FileSystemError (.WriteConfig e))
          | .Json => .error (.LangError (.IoWrite .Json e))
          | .Yaml => .error (.LangError (.IoWrite .Yaml e))) ∧
    RawConfigFile.write cleanIo ⟨fmt, some p⟩ v st
      = (.ok (), ⟨(p, encode fmt v) :: (p, .raw) :: st.files,
          pathAncestors p.dropLast ++ st.dirs⟩) := by
  obtain ⟨a, l, rfl⟩ : ∃ a l, p = a :: l := by
    cases p with
    | nil => exact absurd rfl hne
    | cons a l => exact ⟨a, l, rfl⟩
  refine ⟨fun e => ?_, fun e => ?_, fun e => ?_, write_clean_eq fmt a l v st⟩
  · simp [RawConfigFile.write, FileFormat.write, create_dir_all, parentPath, setFile]
  · simp [RawConfigFile.write, FileFormat.write, create_dir_all, parentPath, setFile]
  · cases fmt <;>
      simp [RawConfigFile.write, FileFormat.write, create_dir_all, parentPath, setFile]

/-- Witness for C9: a clean write of 3 into `a/b.toml` succeeds and
leaves the encoded value behind. -/
theorem write_order_and_error_mapping_witness :
    (["a".toList, "b.toml".toList] : FsPath) ≠ [] ∧
    RawConfigFile.write cleanIo ⟨.Toml, some ["a".toList, "b.toml".toList]⟩ 3 ⟨[], []⟩
      = (.ok (), ⟨[(["a".toList, "b.toml".toList], encode .Toml 3),
          (["a".toList, "b.toml".toList], .raw)],
          pathAncestors (["a".toList, "b.toml".toList] : FsPath).dropLast ++ []⟩) :=
  ⟨by decide, (write_order_and_error_mapping .Toml _ 3 ⟨[], []⟩ (by decide)).2.2.2⟩

/-- Claim C10: round-trip law — for every format and representable
value, a successful `write` followed by `read` on the same resolved
location yields the written value back. -/
theorem write_then_read_round_trip (fmt : FileFormat) (v : Value) (p : FsPath)
    (st : FSState) (hne : p ≠ []) :
    (ConfigFile.write cleanIo ⟨fmt, p⟩ v st).1 = .ok () ∧
    ConfigFile.read cleanIo ⟨fmt, p⟩ (ConfigFile.write cleanIo ⟨fmt, p⟩ v st).2
      = .ok v := by
  obtain ⟨a, l, rfl⟩ : ∃ a l, p = a :: l := by
    cases p with
    | nil => exact absurd rfl hne
    | cons a l => exact ⟨a, l, rfl⟩
  rw [ConfigFile.write]
  simp only [cleanIo]
  rw [write_clean_eq]
  exact ⟨rfl, by
    simp [ConfigFile.read, RawConfigFile.read, lookupFile, FileFormat.read_str, cleanIo,
      encode]⟩

/-- Witness for C10: writing 42 as RON into `c/app.ron` and reading it
back yields 42. -/
theorem write_then_read_round_trip_witness :
    (["c".toList, "app.ron".toList] : FsPath) ≠ [] ∧
    ConfigFile.read cleanIo ⟨.Ron, ["c".toList, "app.ron".toList]⟩
        (ConfigFile.write cleanIo ⟨.Ron, ["c".toList, "app.ron".toList]⟩ 42 ⟨[], []⟩).2
      = .ok 42 :=
  ⟨by decide, (write_then_read_round_trip .Ron 42 _ ⟨[], []⟩ (by decide)).2⟩

end Conrig
